import Mathlib

/-
Verification of src/include/liburing/barrier.h (liburing memory-ordering
primitives).

The header provides two build-time realizations of the same interface:

* the C++ path (inside the __cplusplus guard) delegates every primitive to
  std::atomic_store_explicit / std::atomic_load_explicit with the matching
  memory order; we embed these as pure functions on an abstract memory
  (a map from word locations to word values);

* the C fallback path composes the primitives from volatile accesses,
  a compiler-only barrier (an empty asm with a memory clobber) and x86
  fence instructions; we embed each macro as the finite list of abstract
  events its expansion performs, together with an executor giving the
  state-level meaning of such an event list.
-/

namespace LibUring

/-- Abstract shared memory: word locations to word values. -/
abbrev Mem : Type := Nat → Nat

/-- Embedding of std::atomic_store_explicit on the abstract memory: the
whole word at location p is replaced by v, every other location keeps
its value. -/
def atomic_store_explicit (m : Mem) (p v : Nat) : Mem :=
fun l => if l = p then v else m l

/-- Embedding of std::atomic_load_explicit: return the word at p, with no
effect on memory. -/
def atomic_load_explicit (m : Mem) (p : Nat) : Nat := m p

namespace Cpp

/-- C++ path IO_URING_WRITE_ONCE: atomic_store_explicit with
memory_order_relaxed. -/
def IO_URING_WRITE_ONCE (m : Mem) (var val : Nat) : Mem :=
atomic_store_explicit m var val

/-- C++ path IO_URING_READ_ONCE: atomic_load_explicit with
memory_order_relaxed. -/
def IO_URING_READ_ONCE (m : Mem) (var : Nat) : Nat :=
atomic_load_explicit m var

/-- C++ path io_uring_smp_store_release: atomic_store_explicit with
memory_order_release. -/
def io_uring_smp_store_release (m : Mem) (p v : Nat) : Mem :=
atomic_store_explicit m p v

/-- C++ path io_uring_smp_load_acquire: atomic_load_explicit with
memory_order_acquire. -/
def io_uring_smp_load_acquire (m : Mem) (p : Nat) : Nat :=
atomic_load_explicit m p

end Cpp

namespace C

/-- One step performed by a macro expansion on the C fallback path. -/
inductive Event where
| compilerBarrier : Event
| mfenceInstr : Event
| lfenceInstr : Event
| sfenceInstr : Event
| lockedAddZero : Nat → Event
| write : Nat → Nat → Event
| read : Nat → Event
deriving DecidableEq, Repr

/-- State effect of a single event: its resulting memory and the list of
values it reads.  A compiler barrier and the plain fence instructions
touch no memory; the locked add of the smp full fence rewrites its
32-bit stack operand with old + 0 reduced mod 2^32. -/
def execEvent : Event → Mem → Mem × List Nat
| Event.write l v, m => (fun x => if x = l then v else m x, [])
| Event.lockedAddZero l, m => (fun x => if x = l then (m l + 0) % 2 ^ 32 else m x, [])
| Event.read l, m => (m, [m l])
| Event.compilerBarrier, m => (m, [])
| Event.mfenceInstr, m => (m, [])
| Event.lfenceInstr, m => (m, [])
| Event.sfenceInstr, m => (m, [])

/-- Run a list of events in order, collecting all values read. -/
def execEvents : List Event → Mem → Mem × List Nat
| [], m => (m, [])
| e :: es, m =>
  let r := execEvent e m
  let r2 := execEvents es r.1
  (r2.1, r.2 ++ r2.2)

/-- Fuel-bounded executor: returns none when the event list is longer than
the given fuel, so termination within a fuel bound is an explicit
proposition rather than a property of Lean functions. -/
def execFuel : Nat → List Event → Mem → Option (Mem × List Nat)
| _, [], m => some (m, [])
| 0, _ :: _, _ => none
| Nat.succ fuel, e :: es, m =>
  (execFuel fuel es (execEvent e m).1).map (fun r => (r.1, (execEvent e m).2 ++ r.2))

/-- io_uring_barrier(): the empty asm with a memory clobber is a
compiler-only ordering barrier and performs no memory operation. -/
def io_uring_barrier : List Event := [Event.compilerBarrier]

/-- C path IO_URING_WRITE_ONCE(var, val): a single volatile store. -/
def IO_URING_WRITE_ONCE (var val : Nat) : List Event := [Event.write var val]

/-- C path IO_URING_READ_ONCE(var): a single volatile load. -/
def IO_URING_READ_ONCE (var : Nat) : List Event := [Event.read var]

/-- io_uring_mb(): the mfence instruction. -/
def io_uring_mb : List Event := [Event.mfenceInstr]

/-- io_uring_rmb(): the lfence instruction. -/
def io_uring_rmb : List Event := [Event.lfenceInstr]

/-- io_uring_wmb(): the sfence instruction. -/
def io_uring_wmb : List Event := [Event.sfenceInstr]

/-- io_uring_smp_rmb(): defined in the header as io_uring_barrier(). -/
def io_uring_smp_rmb : List Event := io_uring_barrier

/-- io_uring_smp_wmb(): defined in the header as io_uring_barrier(). -/
def io_uring_smp_wmb : List Event := io_uring_barrier

/-- io_uring_smp_mb() on i386: lock; addl $0, 0(%esp) — a locked add of
the constant 0 to the stack word at esp. -/
def io_uring_smp_mb_i386 (esp : Nat) : List Event := [Event.lockedAddZero esp]

/-- io_uring_smp_mb() on x86-64: lock; addl $0, -132(%rsp) — a locked add
of the constant 0 to the stack word at rsp - 132. -/
def io_uring_smp_mb (rsp : Nat) : List Event := [Event.lockedAddZero (rsp - 132)]

/-- C path io_uring_smp_store_release(p, v): io_uring_barrier(); then
IO_URING_WRITE_ONCE(*p, v). -/
def io_uring_smp_store_release (p v : Nat) : List Event :=
io_uring_barrier ++ IO_URING_WRITE_ONCE p v

/-- C path io_uring_smp_load_acquire(p): ___p1 = IO_URING_READ_ONCE(*p);
io_uring_barrier(); the statement expression yields ___p1. -/
def io_uring_smp_load_acquire (p : Nat) : List Event :=
IO_URING_READ_ONCE p ++ io_uring_barrier

end C

/-- Width-generic relaxed store, mirroring the C++ template over T (and the
C macro's use of __typeof of the operand): memory is a map from locations
to values of an arbitrary word type T. -/
def WRITE_ONCE_T {T : Type} (m : Nat → T) (var : Nat) (val : T) : Nat → T :=
fun l => if l = var then val else m l

/-- Width-generic relaxed load, mirroring the C++ template over T (and the
C macro's use of __typeof of the operand). -/
def READ_ONCE_T {T : Type} (m : Nat → T) (var : Nat) : T := m var

/-- C2: on the fallback (no native atomics) path, io_uring_smp_store_release
expands to exactly a compiler-only ordering barrier followed by the relaxed
write of v to p; executing it changes only location p (to v), reads
nothing, and the expansion contains no CPU fence instruction. -/
theorem store_release_fallback_shape (m : Mem) (p v l : Nat) :
    C.io_uring_smp_store_release p v
      = [C.Event.compilerBarrier, C.Event.write p v]
    ∧ (C.execEvents (C.io_uring_smp_store_release p v) m).1 l
      = (if l = p then v else m l)
    ∧ (C.execEvents (C.io_uring_smp_store_release p v) m).2 = []
    ∧ (∀ e ∈ C.io_uring_smp_store_release p v,
        e ≠ C.Event.mfenceInstr ∧ e ≠ C.Event.lfenceInstr
        ∧ e ≠ C.Event.sfenceInstr ∧ ∀ q, e ≠ C.Event.lockedAddZero q) := by
  refine ⟨rfl, rfl, rfl, ?_⟩
  intro e he
  simp [C.io_uring_smp_store_release, C.io_uring_barrier,
    C.IO_URING_WRITE_ONCE] at he
  rcases he with h | h <;> subst h <;> simp

/-- C3: on the fallback (no native atomics) path, io_uring_smp_load_acquire
expands to exactly the relaxed read of p followed by the ordering barrier
(the speculation-constraining barrier of the spec); executing it leaves
every location unchanged, performs that one read, and the statement
expression yields exactly the value the relaxed read obtained, namely the
word stored at p. -/
theorem load_acquire_fallback_shape (m : Mem) (p l : Nat) :
    C.io_uring_smp_load_acquire p
      = [C.Event.read p, C.Event.compilerBarrier]
    ∧ (C.execEvents (C.io_uring_smp_load_acquire p) m).1 l = m l
    ∧ (C.execEvents (C.io_uring_smp_load_acquire p) m).2 = [m p] := by
  exact ⟨rfl, rfl, rfl⟩

/-- C4: in a single execution context, a relaxed write of v to a word
followed immediately by a relaxed read of that word returns v, on the
native-atomics (C++) realization and on the fallback (C) realization
alike. -/
theorem write_once_then_read_once (m : Mem) (p v : Nat) :
    Cpp.IO_URING_READ_ONCE (Cpp.IO_URING_WRITE_ONCE m p v) p = v
    ∧ (C.execEvents (C.IO_URING_WRITE_ONCE p v ++ C.IO_URING_READ_ONCE p) m).2
      = [v] := by
  constructor
  · simp [Cpp.IO_URING_READ_ONCE, Cpp.IO_URING_WRITE_ONCE,
      atomic_load_explicit, atomic_store_explicit]
  · simp [C.IO_URING_WRITE_ONCE, C.IO_URING_READ_ONCE,
      C.execEvents, C.execEvent]

/-- C5: the native-atomics (C++) realization and the manual fallback (C)
realization of the four-operation interface agree: at every memory, every
location and every value, each pair of corresponding operations yields the
same returned value and the same final contents of the shared word. -/
theorem realizations_agree (m : Mem) (p v l : Nat) :
    Cpp.IO_URING_WRITE_ONCE m p v l
      = (C.execEvents (C.IO_URING_WRITE_ONCE p v) m).1 l
    ∧ (C.execEvents (C.IO_URING_READ_ONCE p) m).2
      = [Cpp.IO_URING_READ_ONCE m p]
    ∧ (C.execEvents (C.IO_URING_READ_ONCE p) m).1 l = m l
    ∧ Cpp.io_uring_smp_store_release m p v l
      = (C.execEvents (C.io_uring_smp_store_release p v) m).1 l
    ∧ (C.execEvents (C.io_uring_smp_load_acquire p) m).2
      = [Cpp.io_uring_smp_load_acquire m p]
    ∧ (C.execEvents (C.io_uring_smp_load_acquire p) m).1 l = m l := by
  refine ⟨rfl, rfl, rfl, rfl, rfl, rfl⟩

/-- C7: every primitive of the fallback path is a straight-line expansion
of at most two events — so the fuel-bounded executor already succeeds with
fuel 2 on every memory — and the native-path operations are total
functions producing a result for every location and value: nothing
blocks, loops, or fails. -/
theorem primitives_bounded_total (m : Mem) (p v rsp esp : Nat) :
    (C.execFuel 2 (C.IO_URING_WRITE_ONCE p v) m).isSome = true
    ∧ (C.execFuel 2 (C.IO_URING_READ_ONCE p) m).isSome = true
    ∧ (C.execFuel 2 (C.io_uring_smp_store_release p v) m).isSome = true
    ∧ (C.execFuel 2 (C.io_uring_smp_load_acquire p) m).isSome = true
    ∧ (C.execFuel 2 C.io_uring_barrier m).isSome = true
    ∧ (C.execFuel 2 C.io_uring_mb m).isSome = true
    ∧ (C.execFuel 2 C.io_uring_rmb m).isSome = true
    ∧ (C.execFuel 2 C.io_uring_wmb m).isSome = true
    ∧ (C.execFuel 2 C.io_uring_smp_rmb m).isSome = true
    ∧ (C.execFuel 2 C.io_uring_smp_wmb m).isSome = true
    ∧ (C.execFuel 2 (C.io_uring_smp_mb rsp) m).isSome = true
    ∧ (C.execFuel 2 (C.io_uring_smp_mb_i386 esp) m).isSome = true
    ∧ (C.io_uring_smp_store_release p v).length ≤ 2
    ∧ (C.io_uring_smp_load_acquire p).length ≤ 2
    ∧ (∃ m2, Cpp.io_uring_smp_store_release m p v = m2)
    ∧ (∃ r, Cpp.io_uring_smp_load_acquire m p = r) := by
  refine ⟨rfl, rfl, rfl, rfl, rfl, rfl, rfl, rfl, rfl, rfl, rfl, rfl,
    by simp [C.io_uring_smp_store_release, C.io_uring_barrier,
      C.IO_URING_WRITE_ONCE],
    by simp [C.io_uring_smp_load_acquire, C.io_uring_barrier,
      C.IO_URING_READ_ONCE],
    ⟨_, rfl⟩, ⟨_, rfl⟩⟩

/-- C8: the relaxed write/read pair is generic over the word type: at each
of the 8-, 16-, 32- and 64-bit integer widths and at pointer width, a
write of any representable value followed by a read of the same word
returns that value exactly. -/
theorem generic_over_widths :
    (∀ (m : Nat → Fin (2 ^ 8)) (p : Nat) (v : Fin (2 ^ 8)),
      READ_ONCE_T (WRITE_ONCE_T m p v) p = v)
    ∧ (∀ (m : Nat → Fin (2 ^ 16)) (p : Nat) (v : Fin (2 ^ 16)),
      READ_ONCE_T (WRITE_ONCE_T m p v) p = v)
    ∧ (∀ (m : Nat → Fin (2 ^ 32)) (p : Nat) (v : Fin (2 ^ 32)),
      READ_ONCE_T (WRITE_ONCE_T m p v) p = v)
    ∧ (∀ (m : Nat → Fin (2 ^ 64)) (p : Nat) (v : Fin (2 ^ 64)),
      READ_ONCE_T (WRITE_ONCE_T m p v) p = v)
    ∧ (∀ (m : Nat → Fin (2 ^ 64) × Unit) (p : Nat) (v : Fin (2 ^ 64) × Unit),
      READ_ONCE_T (WRITE_ONCE_T m p v) p = v) := by
  refine ⟨?_, ?_, ?_, ?_, ?_⟩ <;>
    intro m p v <;> simp [READ_ONCE_T, WRITE_ONCE_T]

/-- C9: the full fences leave every program-visible word unchanged:
io_uring_smp_mb (on x86-64 and on i386) is a locked add of the constant 0
to a 32-bit stack word, so when that word holds a 32-bit value the add
rewrites it with itself; io_uring_mb is an mfence, which performs no
memory write at all. -/
theorem full_fence_preserves_memory (m : Mem) (rsp esp l : Nat)
    (h64 : m (rsp - 132) < 2 ^ 32) (h32 : m esp < 2 ^ 32) :
    (C.execEvents (C.io_uring_smp_mb rsp) m).1 l = m l
    ∧ (C.execEvents (C.io_uring_smp_mb_i386 esp) m).1 l = m l
    ∧ (C.execEvents C.io_uring_mb m).1 l = m l := by
  refine ⟨?_, ?_, rfl⟩
  · simp only [C.io_uring_smp_mb, C.execEvents, C.execEvent, Nat.add_zero,
      List.append_nil]
    split
    · next heq => rw [heq, Nat.mod_eq_of_lt h64]
    · rfl
  · simp only [C.io_uring_smp_mb_i386, C.execEvents, C.execEvent,
      Nat.add_zero, List.append_nil]
    split
    · next heq => rw [heq, Nat.mod_eq_of_lt h32]
    · rfl

/-- Witness for C9 at a concrete memory holding 5 everywhere, with stack
pointers 200 (x86-64) and 300 (i386), observing location 68. -/
theorem full_fence_preserves_memory_witness :
    ((fun _ => 5 : Mem) (200 - 132) < 2 ^ 32
      ∧ (fun _ => 5 : Mem) 300 < 2 ^ 32)
    ∧ ((C.execEvents (C.io_uring_smp_mb 200) (fun _ => 5)).1 68 = 5
      ∧ (C.execEvents (C.io_uring_smp_mb_i386 300) (fun _ => 5)).1 68 = 5
      ∧ (C.execEvents C.io_uring_mb (fun _ => 5)).1 68 = 5) :=
  ⟨⟨by decide, by decide⟩,
    full_fence_preserves_memory (fun _ => 5) 200 300 68
      (by decide) (by decide)⟩

/-- C10: on the fallback path the directional SMP fences io_uring_smp_rmb
and io_uring_smp_wmb are each exactly the compiler-only barrier
io_uring_barrier — identical to it and to each other — and their single
event is neither a CPU fence instruction nor a memory access, so
executing either leaves memory unchanged and reads nothing. -/
theorem smp_directional_fences_are_barrier (m : Mem) :
    C.io_uring_smp_rmb = C.io_uring_barrier
    ∧ C.io_uring_smp_wmb = C.io_uring_barrier
    ∧ C.io_uring_smp_rmb = C.io_uring_smp_wmb
    ∧ (∀ e ∈ C.io_uring_smp_rmb, e = C.Event.compilerBarrier)
    ∧ (∀ e ∈ C.io_uring_smp_wmb, e = C.Event.compilerBarrier)
    ∧ C.execEvents C.io_uring_smp_rmb m = (m, [])
    ∧ C.execEvents C.io_uring_smp_wmb m = (m, []) := by
  refine ⟨rfl, rfl, rfl, ?_, ?_, rfl, rfl⟩ <;>
    · intro e he
      simpa [C.io_uring_smp_rmb, C.io_uring_smp_wmb, C.io_uring_barrier]
        using he

end LibUring
